import Mathlib

/-!
Verification development for the Meta Ads Library scraper
(`src/scraper.ts`, `src/main.ts`, `src/types.ts`).

The TypeScript sources are shallowly embedded:

* JavaScript strings are modelled as lists of UTF-16 code units
  (`JStr := List Nat`); `String.prototype.toLowerCase` is modelled on the
  ASCII range (the only range the fingerprint claims exercise), and the
  `\s` character class of `replace(/\s+/g, ' ')` / `trim()` is the ECMA
  WhiteSpace/LineTerminator set.
* JavaScript 32-bit integer arithmetic (`<<`, `&`, `ToInt32`) is modelled
  on `Int` with explicit reduction modulo 2^32.
* The mutable `Set`/counter state of `DeduplicationTracker` is modelled by
  explicit state passing with a `Finset` of fingerprints.
* The `async` pagination loops are modelled as functions of the sequence of
  DOM measurements they would observe, one value per round; the loop of
  `scrollForMore` (first scraper.ts variant), whose only exits are a stall
  or reaching `maxAds`, is given explicit fuel and returns `none` when the
  fuel runs out before the loop exits.
* Network effects (webhook POSTs, navigation) are modelled by outcome
  oracles: a function from batch number to delivery outcome, and a function
  from attempt number to navigation success.

Sequential state passing models the single-threaded JavaScript event loop;
wall-clock quantities of the run summary (`totalTimeMinutes`,
`adsPerMinute`, `completedAt`) are outside the embedding and omitted.
-/

/-- A JavaScript string as its list of UTF-16 code units
(`s.charCodeAt 0, s.charCodeAt 1, ...`). -/
abbrev JStr := List Nat

/-- The ECMAScript `\s` class (WhiteSpace and LineTerminator code points),
as matched by `replace(/\s+/g, ' ')` and removed by `trim()`. -/
def jsWhitespace (c : Nat) : Bool :=
  (9 ≤ c && c ≤ 13) || c = 32 || c = 160 || c = 5760 ||
  (8192 ≤ c && c ≤ 8202) || c = 8232 || c = 8233 || c = 8239 ||
  c = 8287 || c = 12288 || c = 65279

/-- `String.prototype.toLowerCase`, modelled on the ASCII range: code units
65–90 (`A`–`Z`) map to 97–122 (`a`–`z`). -/
def lowerCode (c : Nat) : Nat := if 65 ≤ c && c ≤ 90 then c + 32 else c

/-- `s.toLowerCase()` on a modelled string. -/
def lowerJ (s : JStr) : JStr := s.map lowerCode

/-- Helper for `collapseWs`: the boolean records whether the previous code
unit was whitespace (so a whitespace run emits a single space). -/
def collapseWsAux : Bool → JStr → JStr
  | _, [] => []
  | prevWs, c :: rest =>
    if jsWhitespace c then
      if prevWs then collapseWsAux true rest
      else 32 :: collapseWsAux true rest
    else c :: collapseWsAux false rest

/-- `s.replace(/\s+/g, ' ')`: every maximal whitespace run becomes one
space (code 32). -/
def collapseWs (s : JStr) : JStr := collapseWsAux false s

/-- `s.trim()`: strip leading and trailing whitespace. -/
def jsTrim (s : JStr) : JStr :=
  ((s.dropWhile jsWhitespace).reverse.dropWhile jsWhitespace).reverse

/-- The ad-text normalisation of `generateAdFingerprint`
(src/scraper.ts:19): `text.toLowerCase().replace(/\s+/g, ' ').trim()
.substring(0, 200)`. -/
def normalizeAdText (s : JStr) : JStr := (jsTrim (collapseWs (lowerJ s))).take 200

/-- `url.split('?')[0]` (src/scraper.ts:20): the part of the string before
the first `?` (code 63). -/
def stripQuerySuffix (s : JStr) : JStr := s.takeWhile (fun c => c != 63)

/-- JavaScript `ToInt32`: reduce an integer into `[-2^31, 2^31)`. -/
def toInt32 (x : Int) : Int := (x + 2147483648) % 4294967296 - 2147483648

/-- One step of the rolling hash (src/scraper.ts:27–28):
`hash = ((hash << 5) - hash) + char; hash = hash & hash`. `hash << 5` is
`ToInt32 (hash * 32)`, the sum is exact in doubles, and `hash & hash`
reduces the result to a signed 32-bit integer. -/
def hashStep (h : Int) (c : Nat) : Int := toInt32 (toInt32 (h * 32) - h + (c : Int))

/-- The 32-bit rolling hash of `generateAdFingerprint`
(src/scraper.ts:24–29), folded over the code units with `hash = 0`. -/
def jsHash (s : JStr) : Int := s.foldl hashStep 0

/-- One lowercase hexadecimal digit, as `Number.prototype.toString(16)`
renders it: `0`–`9` are codes 48–57, `a`–`f` are codes 97–102. -/
def hexDigitCode (d : Nat) : Nat := if d < 10 then 48 + d else 87 + d

/-- Helper for `natToHex`: structural recursion on fuel (the fuel only
ever shrinks alongside `n / 16`, so `fuel = n` is never exhausted). -/
def natToHexAux : Nat → Nat → JStr
  | 0, n => [hexDigitCode (n % 16)]
  | fuel + 1, n =>
    if n < 16 then [hexDigitCode n]
    else natToHexAux fuel (n / 16) ++ [hexDigitCode (n % 16)]

/-- `n.toString(16)`: big-endian lowercase hexadecimal digits. -/
def natToHex (n : Nat) : JStr := natToHexAux n n

/-- `s.padStart(len, pad)`: left-pad to length `len` with code `pad`. -/
def padStart (len pad : Nat) (s : JStr) : JStr :=
  List.replicate (len - s.length) pad ++ s

/-- The constant fingerprint tag `meta_` (codes of `m`, `e`, `t`, `a`,
`_`). -/
def metaHeader : JStr := [109, 101, 116, 97, 95]

/-- Recogniser for the code of a lowercase hexadecimal digit. -/
def isHexDigitCode (c : Nat) : Bool := (48 ≤ c && c ≤ 57) || (97 ≤ c && c ≤ 102)

/-- The record type of `MetaAd` (src/types.ts): optional fields are
`Option`; `ad_fingerprint` is a required string whose empty value plays the
role of "absent" under the JavaScript truthiness test
`if (!ad.ad_fingerprint)`. `percentage` of `DemographicData` and the
numeric range fields are the integers `parseInt` produces. -/
structure DemographicData where
  age_range : JStr
  gender : JStr
  percentage : Nat
deriving DecidableEq

structure MetaAd where
  ad_id : JStr
  ad_archive_id : Option JStr
  ad_fingerprint : JStr
  page_id : JStr
  page_name : JStr
  page_profile_picture_url : Option JStr
  page_profile_uri : Option JStr
  page_categories : Option (List JStr)
  page_like_count : Option Nat
  ad_text : Option JStr
  ad_creative_bodies : Option (List JStr)
  ad_creative_link_captions : Option (List JStr)
  ad_creative_link_titles : Option (List JStr)
  ad_creative_link_descriptions : Option (List JStr)
  cta_text : Option JStr
  cta_type : Option JStr
  media_type : Option JStr
  media_urls : Option (List JStr)
  thumbnail_url : Option JStr
  video_url : Option JStr
  ad_delivery_start_time : Option JStr
  ad_delivery_stop_time : Option JStr
  is_active : Bool
  currency : Option JStr
  spend_lower : Option Nat
  spend_upper : Option Nat
  impressions_lower : Option Nat
  impressions_upper : Option Nat
  platforms : Option (List JStr)
  publisher_platforms : Option (List JStr)
  target_locations : Option (List JStr)
  target_ages : Option JStr
  target_gender : Option JStr
  demographic_distribution : Option (List DemographicData)
  eu_total_reach : Option Nat
  beneficiary_payers : Option (List JStr)
  search_query : JStr
  search_location : Option JStr
  scraped_at : JStr
  source_url : JStr
deriving DecidableEq

/-- An ad with every optional field absent and every string empty; used as
a concrete input for evaluating the definitions. -/
def blankAd : MetaAd where
  ad_id := []
  ad_archive_id := none
  ad_fingerprint := []
  page_id := []
  page_name := []
  page_profile_picture_url := none
  page_profile_uri := none
  page_categories := none
  page_like_count := none
  ad_text := none
  ad_creative_bodies := none
  ad_creative_link_captions := none
  ad_creative_link_titles := none
  ad_creative_link_descriptions := none
  cta_text := none
  cta_type := none
  media_type := none
  media_urls := none
  thumbnail_url := none
  video_url := none
  ad_delivery_start_time := none
  ad_delivery_stop_time := none
  is_active := false
  currency := none
  spend_lower := none
  spend_upper := none
  impressions_lower := none
  impressions_upper := none
  platforms := none
  publisher_platforms := none
  target_locations := none
  target_ages := none
  target_gender := none
  demographic_distribution := none
  eu_total_reach := none
  beneficiary_payers := none
  search_query := []
  search_location := none
  scraped_at := []
  source_url := []

/-- The joined component string of `generateAdFingerprint`
(src/scraper.ts:16–22): `[page_id || '', page_name || '', normalised
ad_text, first media URL without its query string, lowercased cta_text]
.join('|')` (code 124 is `|`); a missing optional field contributes the
empty string. -/
def fpComponents (ad : MetaAd) : JStr :=
  List.intercalate [124]
    [ ad.page_id
    , ad.page_name
    , normalizeAdText (ad.ad_text.getD [])
    , stripQuerySuffix ((ad.media_urls.getD []).headD [])
    , lowerJ (ad.cta_text.getD []) ]

/-- `generateAdFingerprint` (src/scraper.ts:15–32): the `meta_` tag
followed by `Math.abs(hash).toString(16).padStart(8, '0')`. -/
def generateAdFingerprint (ad : MetaAd) : JStr :=
  metaHeader ++ padStart 8 48 (natToHex (jsHash (fpComponents ad)).natAbs)

/-- The fingerprint-stamping step shared by `deduplicateAds`
(src/scraper.ts:42–44) and `DeduplicationTracker.isNew`
(src/scraper.ts:63–65): `if (!ad.ad_fingerprint) ad.ad_fingerprint =
generateAdFingerprint(ad)`. The in-place mutation becomes returning the
updated record. -/
def stampFingerprint (ad : MetaAd) : MetaAd :=
  if ad.ad_fingerprint = [] then
    { ad with ad_fingerprint := generateAdFingerprint ad }
  else ad

/-- The fingerprint `isNew` actually tests: the pre-set field when
non-empty, otherwise the computed one. -/
def effectiveFingerprint (ad : MetaAd) : JStr := (stampFingerprint ad).ad_fingerprint

/-- Helper for `deduplicateAds` (src/scraper.ts:37–53): threads the `seen`
set, returning both the processed (stamped) input records and the retained
unique records. -/
def deduplicateAdsAux (seen : Finset JStr) : List MetaAd → List MetaAd × List MetaAd
  | [] => ([], [])
  | ad :: rest =>
    let a := stampFingerprint ad
    if a.ad_fingerprint ∈ seen then
      let r := deduplicateAdsAux seen rest
      (a :: r.1, r.2)
    else
      let r := deduplicateAdsAux (insert a.ad_fingerprint seen) rest
      (a :: r.1, a :: r.2)

/-- `deduplicateAds` (src/scraper.ts:37–53). The first component is the
input array as the call leaves it (fingerprints stamped in place), the
second the returned unique list. -/
def deduplicateAds (ads : List MetaAd) : List MetaAd × List MetaAd :=
  deduplicateAdsAux ∅ ads

/-- `DeduplicationTracker` (src/scraper.ts:58–88): the mutable `seen` set
and duplicate counter, modelled as explicit state. -/
structure DeduplicationTracker where
  seen : Finset JStr
  duplicateCount : Nat

/-- `new DeduplicationTracker()`. -/
def DeduplicationTracker.new : DeduplicationTracker := ⟨∅, 0⟩

/-- `isNew` (src/scraper.ts:62–74): stamp the fingerprint if absent; a seen
fingerprint increments the duplicate counter and yields `false`, an unseen
one is inserted and yields `true`. Returns (result, mutated record, new
tracker state). -/
def DeduplicationTracker.isNew (t : DeduplicationTracker) (ad : MetaAd) :
    Bool × MetaAd × DeduplicationTracker :=
  let a := stampFingerprint ad
  if a.ad_fingerprint ∈ t.seen then
    (false, a, { t with duplicateCount := t.duplicateCount + 1 })
  else
    (true, a, { t with seen := insert a.ad_fingerprint t.seen })

/-- `loadExisting` (src/scraper.ts:76–80): bulk-insert fingerprints into
`seen`. -/
def DeduplicationTracker.loadExisting (t : DeduplicationTracker) (fps : List JStr) :
    DeduplicationTracker :=
  { t with seen := fps.foldl (fun s fp => insert fp s) t.seen }

/-- `get stats` (src/scraper.ts:82–87): `(unique, duplicates) = (seen.size,
duplicateCount)`. -/
def DeduplicationTracker.stats (t : DeduplicationTracker) : Nat × Nat :=
  (t.seen.card, t.duplicateCount)

/-- Feed a sequence of records through `isNew`, one call per record,
keeping only the final tracker state. -/
def runTracker (t : DeduplicationTracker) (ads : List MetaAd) : DeduplicationTracker :=
  ads.foldl (fun t ad => (t.isNew ad).2.2) t

/-- `rawAds.filter(ad => dedupeTracker.isNew(ad))` (src/main.ts:188):
threads the tracker through the filter; the kept records are the stamped
ones (JavaScript `filter` keeps the mutated objects). -/
def filterNew (t : DeduplicationTracker) : List MetaAd → DeduplicationTracker × List MetaAd
  | [] => (t, [])
  | ad :: rest =>
    let r := t.isNew ad
    let rec_ := filterNew r.2.2 rest
    if r.1 then (rec_.1, r.2.1 :: rec_.2) else (rec_.1, rec_.2)

/-- `scrollForMore` (src/scraper.ts:134–176), as a function of the
measurement sequence `seq` (round `i` observes `seq i` visible ad cards).
State: `previousCount`, `noNewAdsCount` (the stall counter, threshold
`maxNoNewAds = 2`) and the round index. The `while` loop's only exits are
the stall threshold and `currentCount >= maxAds`, so the model takes fuel
and returns `none` when the fuel is exhausted with the loop still running;
`some (previousCount, rounds)` is the returned count and the number of
measurement rounds performed. -/
def sfmAux (seq : Nat → Nat) (maxAds : Nat) : Nat → Nat → Nat → Nat → Option (Nat × Nat)
  | 0, _, _, _ => none
  | fuel + 1, prev, stall, i =>
    if 2 ≤ stall then some (prev, i)
    else if maxAds ≤ seq i then some (prev, i + 1)
    else sfmAux seq maxAds fuel (seq i) (if seq i = prev then stall + 1 else 0) (i + 1)

/-- Run `scrollForMore` from its initial state (`previousCount = 0`,
`noNewAdsCount = 0`) with the given fuel. -/
def scrollForMoreRun (seq : Nat → Nat) (maxAds fuel : Nat) : Option (Nat × Nat) :=
  sfmAux seq maxAds fuel 0 0 0

/-- The round count of a terminated `scrollForMore` run. -/
def sfmRounds (o : Option (Nat × Nat)) : Nat := (o.getD (0, 0)).2

/-- A measurement sequence that oscillates 0, 1, 0, 1, …: the visible
count never plateaus and never reaches a `maxAds` of 2 or more. -/
def oscSeq (i : Nat) : Nat := i % 2

/-- `scrollAndLoadMore` (second scraper.ts variant, src/scraper.ts:420–460)
as a function of the measurement sequence. The `for` loop runs at most
`maxScrollAttempts = 50` iterations (the hard cap, here the fuel argument)
while `currentCount < maxAds`; a round with no growth increments
`noNewAdsCount`, breaking at 3; growth resets the counter and updates
`previousCount`. Returns `(currentCount, rounds)`. -/
def salmAux (seq : Nat → Nat) (maxAds : Nat) : Nat → Nat → Nat → Nat → Nat → Nat × Nat
  | 0, _, cur, _, i => (cur, i)
  | n + 1, prev, cur, stall, i =>
    if maxAds ≤ cur then (cur, i)
    else if seq i = prev then
      if 2 ≤ stall then (cur, i + 1)
      else salmAux seq maxAds n prev (seq i) (stall + 1) (i + 1)
    else salmAux seq maxAds n (seq i) (seq i) 0 (i + 1)

/-- `scrollAndLoadMore(page, maxAds, currentCount)`: the loop from its
initial state, with the source's hard cap of 50 attempts. -/
def scrollAndLoadMore (seq : Nat → Nat) (maxAds cur0 : Nat) : Nat × Nat :=
  salmAux seq maxAds 50 cur0 cur0 0 0

/-- The outcome of one webhook POST (src/main.ts:104–121): a success
response, a non-ok HTTP status, or a thrown transport error. -/
inductive DeliveryOutcome
  | ok
  | httpError (status : Nat)
  | transportError
deriving DecidableEq

/-- Whether a delivery outcome is a successful delivery. -/
def DeliveryOutcome.delivered : DeliveryOutcome → Bool
  | .ok => true
  | _ => false

/-- Helper for `chunkList`: one `take`/`drop` step per loop iteration of
`for (let i = 0; i < ads.length; i += batchSize)` (src/main.ts:205–208).
The fuel bounds the iteration count; for a positive batch size a fuel of
`l.length` is never exhausted (each step drops at least one elements), so
`chunkList` below agrees with the JavaScript loop whenever that loop
terminates. -/
def chunksFuel (b : Nat) : Nat → List MetaAd → List (List MetaAd)
  | _, [] => []
  | 0, _ :: _ => []
  | fuel + 1, x :: xs => (x :: xs).take b :: chunksFuel b fuel ((x :: xs).drop b)

/-- `ads.slice(i, i + batchSize)` for `i = 0, b, 2b, …`: the consecutive
batches of at most `b` records. -/
def chunkList (b : Nat) (l : List MetaAd) : List (List MetaAd) := chunksFuel b l.length l

/-- `sendToWebhook` iterated over a list of batches (src/main.ts:91–122,
203–209): each call first increments the shared `batchNumber`, posts, and
on a non-ok status or a thrown fetch error only logs — the failure is
swallowed, nothing is retried and the loop continues. The outcome oracle
`f` gives the response to the POST carrying each batch number. Returns the
final `batchNumber` and the dispatch list `(batchNumber, ads, outcome)`. -/
def sendBatches (f : Nat → DeliveryOutcome) :
    Nat → List (List MetaAd) → Nat × List (Nat × List MetaAd × DeliveryOutcome)
  | bn, [] => (bn, [])
  | bn, c :: cs =>
    let rest := sendBatches f (bn + 1) cs
    (rest.1, (bn + 1, c, f (bn + 1)) :: rest.2)

/-- The run-level mutable state of `main()` (src/main.ts:57–64): the shared
tracker, the accumulated ads, the processed-ads and completed-queries
counters, the shared webhook batch counter, and one dispatch list per
handled query. -/
structure RunState where
  tracker : DeduplicationTracker
  allAds : List MetaAd
  totalProcessed : Nat
  queriesCompleted : Nat
  batchNumber : Nat
  dispatches : List (List (Nat × List MetaAd × DeliveryOutcome))

/-- The initial run state. -/
def RunState.init : RunState :=
  ⟨DeduplicationTracker.new, [], 0, 0, 0, []⟩

/-- `requestHandler` (src/main.ts:168–221) for one query, with the webhook
configured. `Except.ok rawAds` is a `scrapeQuery` call returning the raw
extracted records; `Except.error` is a thrown scrape error, whose `catch`
branch only increments `queriesCompleted` — the failure never escapes the
handler. On success the raw records are filtered through the shared
tracker, the counters are updated, and the accepted records are sent in
batches of `b`. -/
def handleQuery (b : Nat) (f : Nat → DeliveryOutcome) (st : RunState) :
    Except String (List MetaAd) → RunState
  | .error _ => { st with queriesCompleted := st.queriesCompleted + 1 }
  | .ok rawAds =>
    let fr := filterNew st.tracker rawAds
    let sb := sendBatches f st.batchNumber (chunkList b fr.2)
    { tracker := fr.1
      allAds := st.allAds ++ fr.2
      totalProcessed := st.totalProcessed + fr.2.length
      queriesCompleted := st.queriesCompleted + 1
      batchNumber := sb.1
      dispatches := st.dispatches ++ [sb.2] }

/-- A full crawler run (src/main.ts:237–239): the queries' scrape results
handled in order against the shared run state. -/
def processRun (b : Nat) (f : Nat → DeliveryOutcome)
    (results : List (Except String (List MetaAd))) : RunState :=
  results.foldl (handleQuery b f) RunState.init

/-- The fields of the `SUMMARY` value (src/main.ts:259–269) that the
embedding can express; the wall-clock fields (`totalTimeMinutes`,
`adsPerMinute`, `completedAt`) are outside it. -/
structure RunSummary where
  queriesProcessed : Nat
  totalQueries : Nat
  totalAdsScraped : Nat
  uniqueAds : Nat
  duplicatesSkipped : Nat
  webhookBatches : Nat
deriving DecidableEq

/-- Build the `SUMMARY` value from the final run state
(src/main.ts:242–269): `uniqueAds` is `deduplicateAds(allAds).length`,
`duplicatesSkipped` is `dedupeTracker.stats.duplicates`, `webhookBatches`
the final `batchNumber`. -/
def mkSummary (results : List (Except String (List MetaAd))) (st : RunState) : RunSummary :=
  { queriesProcessed := st.queriesCompleted
    totalQueries := results.length
    totalAdsScraped := st.totalProcessed
    uniqueAds := (deduplicateAds st.allAds).2.length
    duplicatesSkipped := st.tracker.duplicateCount
    webhookBatches := st.batchNumber }

/-- A run's dispatches with the delivery outcomes erased: batch numbers and
payloads only. -/
def stripOutcomes (st : RunState) : List (List (Nat × List MetaAd)) :=
  st.dispatches.map (fun ds => ds.map (fun d => (d.1, d.2.1)))

/-- The number of failed deliveries of a run. -/
def failedDeliveries (st : RunState) : Nat :=
  (st.dispatches.flatten.filter (fun d => !d.2.2.delivered)).length

/-- The outcome oracle under which every delivery succeeds. -/
def allOk : Nat → DeliveryOutcome := fun _ => .ok

/-- The outcome oracle under which every delivery fails with HTTP 500. -/
def allHttp500 : Nat → DeliveryOutcome := fun _ => .httpError 500

/-- The navigation retry of the first `scrapeQuery` variant
(src/scraper.ts:314–331): `for (attempt = 1; attempt <= 2; attempt++)` —
two attempts, rethrowing the error when the second fails. `att n` is
whether attempt `n`'s `page.goto` succeeds; the result is (navigation
succeeded, attempts performed). -/
def navigateRetryFast (att : Nat → Bool) : Bool × Nat :=
  if att 1 then (true, 1)
  else if att 2 then (true, 2)
  else (false, 2)

/-- The navigation retry of the second `scrapeQuery` variant
(src/scraper.ts:621–636): `retries = 3`, so up to three attempts with a
fixed 2000 ms delay between them, throwing when the third fails. -/
def navigateRetrySafe (att : Nat → Bool) : Bool × Nat :=
  if att 1 then (true, 1)
  else if att 2 then (true, 2)
  else if att 3 then (true, 3)
  else (false, 3)

/-- An attempt oracle under which only the third navigation attempt would
succeed. -/
def thirdAttemptSucceeds (n : Nat) : Bool := n == 3

/-! ### Bounds of the rolling hash and the hexadecimal rendering -/

/-- `toInt32` lands in the signed 32-bit range. -/
theorem toInt32_bounds (x : Int) : -2147483648 ≤ toInt32 x ∧ toInt32 x < 2147483648 := by
  unfold toInt32
  have h1 : (0 : Int) ≤ (x + 2147483648) % 4294967296 :=
    Int.emod_nonneg _ (by norm_num)
  have h2 : (x + 2147483648) % 4294967296 < 4294967296 :=
    Int.emod_lt_of_pos _ (by norm_num)
  omega

/-- The rolling hash stays in the signed 32-bit range from any in-range
accumulator. -/
theorem foldl_hashStep_bounds (s : JStr) :
    ∀ h : Int, -2147483648 ≤ h ∧ h < 2147483648 →
      -2147483648 ≤ s.foldl hashStep h ∧ s.foldl hashStep h < 2147483648 := by
  induction s with
  | nil => intro h hh; simpa using hh
  | cons c rest ih =>
    intro h _
    exact ih (hashStep h c) (toInt32_bounds _)

/-- `jsHash` lands in the signed 32-bit range. -/
theorem jsHash_bounds (s : JStr) :
    -2147483648 ≤ jsHash s ∧ jsHash s < 2147483648 :=
  foldl_hashStep_bounds s 0 (by norm_num)

/-- `Math.abs` of the hash is at most 2^31. -/
theorem jsHash_natAbs_le (s : JStr) : (jsHash s).natAbs ≤ 2147483648 := by
  have := jsHash_bounds s
  omega

/-- `hexDigitCode` of a digit below 16 is a hexadecimal digit code. -/
theorem isHexDigitCode_hexDigitCode (d : Nat) (hd : d < 16) :
    isHexDigitCode (hexDigitCode d) = true := by
  unfold hexDigitCode isHexDigitCode
  split <;> simp <;> omega

/-- Every code `natToHexAux` emits is a hexadecimal digit code. -/
theorem natToHexAux_all_hex (fuel : Nat) :
    ∀ n : Nat, (natToHexAux fuel n).all isHexDigitCode = true := by
  induction fuel with
  | zero =>
    intro n
    simp [natToHexAux, isHexDigitCode_hexDigitCode (n % 16) (Nat.mod_lt _ (by omega))]
  | succ fuel ih =>
    intro n
    rw [natToHexAux]
    split
    · simp [isHexDigitCode_hexDigitCode n (by omega)]
    · simp [List.all_append, ih (n / 16),
        isHexDigitCode_hexDigitCode (n % 16) (Nat.mod_lt _ (by omega))]

/-- Every code `natToHex` emits is a hexadecimal digit code. -/
theorem natToHex_all_hex (n : Nat) : (natToHex n).all isHexDigitCode = true :=
  natToHexAux_all_hex n n

/-- `natToHexAux` emits at most `k` digits when `n < 16 ^ k` (`k ≥ 1`). -/
theorem natToHexAux_length_le (fuel : Nat) :
    ∀ n k : Nat, 0 < k → n < 16 ^ k → (natToHexAux fuel n).length ≤ k := by
  induction fuel with
  | zero => intro n k hk _; simp [natToHexAux]; omega
  | succ fuel ih =>
    intro n k hk hn
    rw [natToHexAux]
    split
    · simp; omega
    · rename_i h16
      have hk2 : 2 ≤ k := by
        by_contra hlt
        have : k = 1 := by omega
        subst this
        simp at hn
        omega
      have hdiv : n / 16 < 16 ^ (k - 1) := by
        have hmul : n < 16 ^ (k - 1) * 16 := by
          have : 16 ^ (k - 1) * 16 = 16 ^ k := by
            have : k - 1 + 1 = k := by omega
            calc 16 ^ (k - 1) * 16 = 16 ^ (k - 1 + 1) := by ring
            _ = 16 ^ k := by rw [this]
          omega
        exact (Nat.div_lt_iff_lt_mul (by omega)).mpr hmul
      have := ih (n / 16) (k - 1) (by omega) hdiv
      simp only [List.length_append, List.length_cons, List.length_nil]
      omega

/-- `natToHex n` has at most `k` digits when `n < 16 ^ k` (`k ≥ 1`). -/
theorem natToHex_length_le (k n : Nat) (hk : 0 < k) (hn : n < 16 ^ k) :
    (natToHex n).length ≤ k :=
  natToHexAux_length_le n n k hk hn

/-- `padStart` pads a short string to exactly the requested length. -/
theorem padStart_length (len pad : Nat) (s : JStr) (h : s.length ≤ len) :
    (padStart len pad s).length = len := by
  unfold padStart
  simp only [List.length_append, List.length_replicate]
  omega

/-- Padding with hexadecimal digit codes preserves being all-hexadecimal. -/
theorem padStart_all_hex (len : Nat) (s : JStr) (hs : s.all isHexDigitCode = true) :
    (padStart len 48 s).all isHexDigitCode = true := by
  unfold padStart
  simp only [List.all_append, Bool.and_eq_true, hs, and_true]
  simp only [List.all_eq_true]
  intro c hc
  rw [List.eq_of_mem_replicate hc]
  decide

/-- The hexadecimal rendering of the hash has exactly 8 digits. -/
theorem fingerprint_hex_length (ad : MetaAd) :
    (padStart 8 48 (natToHex (jsHash (fpComponents ad)).natAbs)).length = 8 := by
  apply padStart_length
  apply natToHex_length_le 8 _ (by norm_num)
  have := jsHash_natAbs_le (fpComponents ad)
  norm_num
  omega

/-! ### Claim C9 -/

/-- Claim C9: for every ad record — optional fields, when absent, entering
as empty strings — `generateAdFingerprint` returns the constant `meta_`
tag followed by exactly 8 lowercase hexadecimal digits, the digits being
the zero-padded hexadecimal rendering of the absolute value of the 32-bit
signed rolling hash of the normalised component string. -/
theorem fingerprint_format_fixed (ad : MetaAd) :
    generateAdFingerprint ad
      = metaHeader ++ padStart 8 48 (natToHex (jsHash (fpComponents ad)).natAbs)
    ∧ (generateAdFingerprint ad).take 5 = metaHeader
    ∧ ((generateAdFingerprint ad).drop 5).length = 8
    ∧ ((generateAdFingerprint ad).drop 5).all isHexDigitCode = true := by
  refine ⟨rfl, ?_, ?_, ?_⟩
  · show (metaHeader ++ _).take 5 = metaHeader
    have h5 : (5 : Nat) = metaHeader.length := by decide
    rw [h5, List.take_left]
  · show ((metaHeader ++ _).drop 5).length = 8
    have h5 : (5 : Nat) = metaHeader.length := by decide
    rw [h5, List.drop_left]
    exact fingerprint_hex_length ad
  · show ((metaHeader ++ _).drop 5).all isHexDigitCode = true
    have h5 : (5 : Nat) = metaHeader.length := by decide
    rw [h5, List.drop_left]
    exact padStart_all_hex _ _ (natToHex_all_hex _)

/-! ### Claim C2 -/

/-- Claim C2: `generateAdFingerprint` is a pure function — repeated
applications to the same record give the same string — and two records
that agree on advertiser id and name and call-to-action text, whose ad
texts normalise identically (the normalisation lower-cases, collapses
whitespace runs and keeps the first 200 characters, so texts differing
only in case or whitespace runs inside that window normalise identically),
and whose first media URLs agree once the query-string suffix after `?` is
stripped, receive equal fingerprints. -/
theorem fingerprint_deterministic_normalized (a b : MetaAd)
    (hid : a.page_id = b.page_id)
    (hname : a.page_name = b.page_name)
    (htext : normalizeAdText (a.ad_text.getD []) = normalizeAdText (b.ad_text.getD []))
    (hmedia : stripQuerySuffix ((a.media_urls.getD []).headD [])
        = stripQuerySuffix ((b.media_urls.getD []).headD []))
    (hcta : a.cta_text = b.cta_text) :
    generateAdFingerprint a = generateAdFingerprint b
    ∧ generateAdFingerprint a = generateAdFingerprint a := by
  constructor
  · unfold generateAdFingerprint fpComponents
    rw [hid, hname, htext, hmedia, hcta]
  · rfl

/-- Concrete record whose ad text has extra letter case and whitespace and
whose media URL carries a query string: text `Buy  Now!`, URL `i?a`. -/
def adCaseUpper : MetaAd :=
  { blankAd with
    ad_text := some [66, 117, 121, 32, 32, 78, 111, 119, 33]
    media_urls := some [[105, 63, 97]] }

/-- The same record with text `buy now!` and URL `i?b`. -/
def adCaseLower : MetaAd :=
  { blankAd with
    ad_text := some [98, 117, 121, 32, 110, 111, 119, 33]
    media_urls := some [[105, 63, 98]] }

/-- Witness for C2 at the concrete pair `adCaseUpper`/`adCaseLower`. -/
theorem fingerprint_deterministic_normalized_witness :
    generateAdFingerprint adCaseUpper = generateAdFingerprint adCaseLower
    ∧ generateAdFingerprint adCaseUpper = generateAdFingerprint adCaseUpper :=
  fingerprint_deterministic_normalized adCaseUpper adCaseLower rfl rfl
    (by decide) (by decide) rfl

/-! ### Claim C10 -/

/-- The processed input records of `deduplicateAds` are exactly the
stamped originals. -/
theorem deduplicateAdsAux_processed (ads : List MetaAd) :
    ∀ seen : Finset JStr, (deduplicateAdsAux seen ads).1 = ads.map stampFingerprint := by
  induction ads with
  | nil => intro seen; rfl
  | cons ad rest ih =>
    intro seen
    unfold deduplicateAdsAux
    dsimp only
    split
    · simpa using ih seen
    · simpa using ih _

/-- `stampFingerprint` on an empty fingerprint field sets the computed
fingerprint. -/
theorem stampFingerprint_eq_of_empty (ad : MetaAd) (h : ad.ad_fingerprint = []) :
    stampFingerprint ad = { ad with ad_fingerprint := generateAdFingerprint ad } := by
  unfold stampFingerprint
  rw [if_pos h]

/-- `stampFingerprint` on a non-empty fingerprint field is the identity. -/
theorem stampFingerprint_eq_of_nonempty (ad : MetaAd) (h : ¬ ad.ad_fingerprint = []) :
    stampFingerprint ad = ad := by
  unfold stampFingerprint
  rw [if_neg h]

/-- Claim C10: `isNew` and `deduplicateAds` act on a record only through
the stamping step: `ad_fingerprint` is set to `generateAdFingerprint ad`
exactly when it was empty (and the computed fingerprint, tagged `meta_`,
is never itself empty, so the field genuinely changes then); restoring the
original `ad_fingerprint` recovers the record, so every other field is
left unchanged. -/
theorem isNew_frame_effect (t : DeduplicationTracker) (ad : MetaAd) (ads : List MetaAd) :
    (t.isNew ad).2.1 = stampFingerprint ad
    ∧ (deduplicateAds ads).1 = ads.map stampFingerprint
    ∧ (stampFingerprint ad).ad_fingerprint
        = (if ad.ad_fingerprint = [] then generateAdFingerprint ad else ad.ad_fingerprint)
    ∧ { stampFingerprint ad with ad_fingerprint := ad.ad_fingerprint } = ad
    ∧ 0 < (generateAdFingerprint ad).length := by
  refine ⟨?_, deduplicateAdsAux_processed ads ∅, ?_, ?_, ?_⟩
  · unfold DeduplicationTracker.isNew
    dsimp only
    split <;> rfl
  · by_cases hfp : ad.ad_fingerprint = []
    · rw [stampFingerprint_eq_of_empty ad hfp, if_pos hfp]
    · rw [stampFingerprint_eq_of_nonempty ad hfp, if_neg hfp]
  · by_cases hfp : ad.ad_fingerprint = []
    · rw [stampFingerprint_eq_of_empty ad hfp]
    · rw [stampFingerprint_eq_of_nonempty ad hfp]
  · simp [generateAdFingerprint, metaHeader]

/-! ### The tracker's state transitions -/

/-- The computed fingerprint is never the empty string. -/
theorem generateAdFingerprint_ne_nil (ad : MetaAd) : generateAdFingerprint ad ≠ [] := by
  simp [generateAdFingerprint, metaHeader]

/-- A stamped record carries a non-empty fingerprint. -/
theorem stampFingerprint_fp_ne_nil (ad : MetaAd) :
    (stampFingerprint ad).ad_fingerprint ≠ [] := by
  unfold stampFingerprint
  split
  · exact generateAdFingerprint_ne_nil ad
  · assumption

/-- Stamping is idempotent. -/
theorem stampFingerprint_idem (ad : MetaAd) :
    stampFingerprint (stampFingerprint ad) = stampFingerprint ad :=
  stampFingerprint_eq_of_nonempty _ (stampFingerprint_fp_ne_nil ad)

/-- `isNew` on a tracker that has seen the record's fingerprint. -/
theorem isNew_eq_of_mem (t : DeduplicationTracker) (ad : MetaAd)
    (h : (stampFingerprint ad).ad_fingerprint ∈ t.seen) :
    t.isNew ad
      = (false, stampFingerprint ad,
         { t with duplicateCount := t.duplicateCount + 1 }) := by
  unfold DeduplicationTracker.isNew
  dsimp only
  rw [if_pos h]

/-- `isNew` on a tracker that has not seen the record's fingerprint. -/
theorem isNew_eq_of_not_mem (t : DeduplicationTracker) (ad : MetaAd)
    (h : (stampFingerprint ad).ad_fingerprint ∉ t.seen) :
    t.isNew ad
      = (true, stampFingerprint ad,
         { t with seen := insert (stampFingerprint ad).ad_fingerprint t.seen }) := by
  unfold DeduplicationTracker.isNew
  dsimp only
  rw [if_neg h]

/-! ### Claim C1 -/

/-- Claim C1, amended: on a tracker whose `seen` set does not already hold
the record's effective fingerprint, `isNew` answers `true` and raises
`stats.unique` by one; calling `isNew` again with the record the first
call returned (the same record, now stamped) answers `false` and raises
`stats.duplicates` by exactly one while leaving `stats.unique` unchanged. -/
theorem isNew_twice_fresh_fingerprint (t : DeduplicationTracker) (ad : MetaAd)
    (h : effectiveFingerprint ad ∉ t.seen) :
    (t.isNew ad).1 = true
    ∧ ((t.isNew ad).2.2).stats = (t.stats.1 + 1, t.stats.2)
    ∧ (((t.isNew ad).2.2).isNew ((t.isNew ad).2.1)).1 = false
    ∧ ((((t.isNew ad).2.2).isNew ((t.isNew ad).2.1)).2.2).stats
        = (((t.isNew ad).2.2).stats.1, ((t.isNew ad).2.2).stats.2 + 1) := by
  have hmem : (stampFingerprint ad).ad_fingerprint ∉ t.seen := h
  have h1 := isNew_eq_of_not_mem t ad hmem
  have h2 : ({ t with seen := insert (stampFingerprint ad).ad_fingerprint t.seen}
        : DeduplicationTracker).isNew (stampFingerprint ad)
      = (false, stampFingerprint ad,
         { t with seen := insert (stampFingerprint ad).ad_fingerprint t.seen,
                  duplicateCount := t.duplicateCount + 1 }) := by
    rw [isNew_eq_of_mem _ _ (by rw [stampFingerprint_idem]; exact Finset.mem_insert_self _ _),
      stampFingerprint_idem]
  rw [h1]
  dsimp only
  rw [h2]
  dsimp only
  refine ⟨rfl, ?_, rfl, ?_⟩
  · simp [DeduplicationTracker.stats, Finset.card_insert_of_not_mem hmem]
  · simp [DeduplicationTracker.stats]

/-- Witness for C1: a fresh tracker and the blank record. -/
theorem isNew_twice_fresh_fingerprint_witness :
    (DeduplicationTracker.new.isNew blankAd).1 = true
    ∧ ((DeduplicationTracker.new.isNew blankAd).2.2).stats
        = (DeduplicationTracker.new.stats.1 + 1, DeduplicationTracker.new.stats.2)
    ∧ (((DeduplicationTracker.new.isNew blankAd).2.2).isNew
        ((DeduplicationTracker.new.isNew blankAd).2.1)).1 = false
    ∧ ((((DeduplicationTracker.new.isNew blankAd).2.2).isNew
        ((DeduplicationTracker.new.isNew blankAd).2.1)).2.2).stats
        = (((DeduplicationTracker.new.isNew blankAd).2.2).stats.1,
           ((DeduplicationTracker.new.isNew blankAd).2.2).stats.2 + 1) :=
  isNew_twice_fresh_fingerprint DeduplicationTracker.new blankAd (by decide)

/-- Counterexample to C1 as stated: on a tracker that already holds the
record's fingerprint (here via `loadExisting`), the FIRST call to `isNew`
already returns `false`, not `true`. -/
theorem isNew_not_new_on_first_call :
    ((DeduplicationTracker.new.loadExisting
        [generateAdFingerprint blankAd]).isNew blankAd).1 = false := by decide

/-! ### Claim C5 -/

/-- `loadExisting` unions the listed fingerprints into `seen`. -/
theorem foldl_insert_toFinset (l : List JStr) :
    ∀ s : Finset JStr, l.foldl (fun s fp => insert fp s) s = s ∪ l.toFinset := by
  induction l with
  | nil => intro s; simp
  | cons a l ih =>
    intro s
    simp only [List.foldl_cons, ih (insert a s), List.toFinset_cons,
      Finset.insert_union, Finset.union_insert]

/-- Claim C5: after `loadExisting` with a list containing `fp`, the first
call to `isNew` on any record whose (effective) fingerprint is `fp`
returns `false` and increments the duplicate counter. -/
theorem loadExisting_rejects_on_first_encounter (t : DeduplicationTracker)
    (fps : List JStr) (fp : JStr) (ad : MetaAd)
    (hmem : fp ∈ fps) (hfp : effectiveFingerprint ad = fp) :
    ((t.loadExisting fps).isNew ad).1 = false
    ∧ (((t.loadExisting fps).isNew ad).2.2).duplicateCount
        = (t.loadExisting fps).duplicateCount + 1 := by
  have hseen : (stampFingerprint ad).ad_fingerprint ∈ (t.loadExisting fps).seen := by
    show _ ∈ fps.foldl (fun s fp => insert fp s) t.seen
    rw [foldl_insert_toFinset]
    exact Finset.mem_union_right _ (by rw [show (stampFingerprint ad).ad_fingerprint = fp from hfp]; exact List.mem_toFinset.mpr hmem)
    
  unfold DeduplicationTracker.isNew
  rw [if_pos hseen]
  exact ⟨rfl, rfl⟩

/-- A record carrying a pre-set fingerprint `a` (code 97). -/
def presetAd : MetaAd := { blankAd with ad_fingerprint := [97] }

/-- Witness for C5: pre-load the fingerprint `a`, then meet a record whose
fingerprint is `a`. -/
theorem loadExisting_rejects_on_first_encounter_witness :
    ((DeduplicationTracker.new.loadExisting [[97]]).isNew presetAd).1 = false
    ∧ (((DeduplicationTracker.new.loadExisting [[97]]).isNew presetAd).2.2).duplicateCount
        = (DeduplicationTracker.new.loadExisting [[97]]).duplicateCount + 1 :=
  loadExisting_rejects_on_first_encounter DeduplicationTracker.new [[97]] [97] presetAd
    (by decide) (by decide)

/-! ### Claim C6 -/

/-- One `isNew` call raises `seen.card + duplicateCount` by exactly one:
either the fingerprint is new (the set grows) or it is a duplicate (the
counter grows). -/
theorem isNew_card_add_dup (t : DeduplicationTracker) (ad : MetaAd) :
    ((t.isNew ad).2.2).seen.card + ((t.isNew ad).2.2).duplicateCount
      = t.seen.card + t.duplicateCount + 1 := by
  unfold DeduplicationTracker.isNew
  dsimp only
  split
  · simp; omega
  · rename_i hnotmem
    simp [Finset.card_insert_of_not_mem hnotmem]
    omega

/-- Folded over a record sequence, `seen.card + duplicateCount` grows by
the sequence's length. -/
theorem runTracker_card_add_dup (ads : List MetaAd) :
    ∀ t : DeduplicationTracker,
      (runTracker t ads).seen.card + (runTracker t ads).duplicateCount
        = t.seen.card + t.duplicateCount + ads.length := by
  induction ads with
  | nil => intro t; simp [runTracker]
  | cons ad rest ih =>
    intro t
    show (runTracker ((t.isNew ad).2.2) rest).seen.card
        + (runTracker ((t.isNew ad).2.2) rest).duplicateCount = _
    rw [ih ((t.isNew ad).2.2)]
    have := isNew_card_add_dup t ad
    simp only [List.length_cons]
    omega

/-- Claim C6, amended: after pre-loading `ps` into a fresh tracker and one
`isNew` call per record of `ads`, `stats.unique + stats.duplicates` equals
`ads.length` plus the number of DISTINCT pre-loaded fingerprints — the
`unique` statistic is the size of the `seen` set, which still contains the
pre-loaded fingerprints; only with no pre-loaded fingerprints does the sum
equal the raw record count. -/
theorem stats_internal_consistency (ps : List JStr) (ads : List MetaAd) :
    (runTracker (DeduplicationTracker.new.loadExisting ps) ads).stats.1
    + (runTracker (DeduplicationTracker.new.loadExisting ps) ads).stats.2
    = ads.length + ps.toFinset.card := by
  unfold DeduplicationTracker.stats
  rw [runTracker_card_add_dup]
  have hseen : (DeduplicationTracker.new.loadExisting ps).seen = ps.toFinset := by
    show ps.foldl (fun s fp => insert fp s) (∅ : Finset JStr) = ps.toFinset
    rw [foldl_insert_toFinset]
    simp
  have hdup : (DeduplicationTracker.new.loadExisting ps).duplicateCount = 0 := rfl
  rw [hseen, hdup]
  omega

/-- Counterexample to C6 as stated: pre-load one fingerprint (`a`) and
feed one record; `stats.unique + stats.duplicates` is 2, the raw record
count is 1. -/
theorem stats_sum_exceeds_raw_count :
    decide ((runTracker (DeduplicationTracker.new.loadExisting [[97]]) [blankAd]).stats.1
        + (runTracker (DeduplicationTracker.new.loadExisting [[97]]) [blankAd]).stats.2
        = ([blankAd] : List MetaAd).length) = false
    ∧ (runTracker (DeduplicationTracker.new.loadExisting [[97]]) [blankAd]).stats.1
        + (runTracker (DeduplicationTracker.new.loadExisting [[97]]) [blankAd]).stats.2 = 2 := by
  exact ⟨by decide, by decide⟩

/-! ### Pagination round bounds (claim C4) -/

/-- `scrollAndLoadMore` performs at most one measurement round per unit of
fuel. -/
theorem salmAux_rounds_le (seq : Nat → Nat) (maxAds : Nat) :
    ∀ (n prev cur stall i : Nat), (salmAux seq maxAds n prev cur stall i).2 ≤ i + n := by
  intro n
  induction n with
  | zero => intro prev cur stall i; dsimp only [salmAux]; omega
  | succ n ih =>
    intro prev cur stall i
    rw [salmAux]
    by_cases hm : maxAds ≤ cur
    · rw [if_pos hm]; dsimp only; omega
    · rw [if_neg hm]
      by_cases hc : seq i = prev
      · rw [if_pos hc]
        by_cases hst : 2 ≤ stall
        · rw [if_pos hst]; dsimp only; omega
        · rw [if_neg hst]
          have := ih prev (seq i) (stall + 1) (i + 1)
          omega
      · rw [if_neg hc]
        have := ih (seq i) (seq i) 0 (i + 1)
        omega

/-- Once `previousCount` and `currentCount` both sit on the plateau value,
`scrollAndLoadMore` stops within `1 + (2 - stall)` further rounds. -/
theorem salmAux_stalled (seq : Nat → Nat) (maxAds v : Nat) :
    ∀ (n stall i : Nat), (∀ j, i ≤ j → seq j = v) →
      (salmAux seq maxAds n v v stall i).2 ≤ i + 1 + (2 - stall) := by
  intro n
  induction n with
  | zero => intro stall i _; dsimp only [salmAux]; omega
  | succ n ih =>
    intro stall i h
    have hseqi : seq i = v := h i (le_refl i)
    rw [salmAux, hseqi]
    by_cases hm : maxAds ≤ v
    · rw [if_pos hm]; dsimp only; omega
    · rw [if_neg hm, if_pos rfl]
      by_cases hst : 2 ≤ stall
      · rw [if_pos hst]; dsimp only; omega
      · rw [if_neg hst]
        have := ih (stall + 1) (i + 1) (fun j hj => h j (by omega))
        omega

/-- From any loop state, a measurement sequence constant from round `i + 1`
on lets `scrollAndLoadMore` stop within 4 further rounds. -/
theorem salmAux_tail (seq : Nat → Nat) (maxAds v : Nat)
    (n prev cur stall i : Nat) (h : ∀ j, i ≤ j → seq j = v) :
    (salmAux seq maxAds n prev cur stall i).2 ≤ i + 4 := by
  have hseqi : seq i = v := h i (le_refl i)
  cases n with
  | zero => dsimp only [salmAux]; omega
  | succ n =>
    rw [salmAux, hseqi]
    by_cases hm : maxAds ≤ cur
    · rw [if_pos hm]; dsimp only; omega
    · rw [if_neg hm]
      by_cases hpv : v = prev
      · rw [if_pos hpv]
        by_cases hst : 2 ≤ stall
        · rw [if_pos hst]; dsimp only; omega
        · rw [if_neg hst, ← hpv]
          have := salmAux_stalled seq maxAds v n (stall + 1) (i + 1)
            (fun j hj => h j (by omega))
          omega
      · rw [if_neg hpv]
        have := salmAux_stalled seq maxAds v n 0 (i + 1)
          (fun j hj => h j (by omega))
        omega

/-- `scrollAndLoadMore` on a measurement sequence constant from round
`i + d + 1` on stops within `d + 4` further rounds, from any state. -/
theorem salmAux_plateau (seq : Nat → Nat) (maxAds : Nat) :
    ∀ (d n i prev cur stall : Nat), (∀ j, i + d ≤ j → seq j = seq (i + d)) →
      (salmAux seq maxAds n prev cur stall i).2 ≤ i + d + 4 := by
  intro d
  induction d with
  | zero =>
    intro n i prev cur stall h
    have h' : ∀ j, i ≤ j → seq j = seq i := by
      intro j hj
      have := h j (by omega)
      have h0 : i + 0 = i := by omega
      rw [h0] at this
      exact this
    have := salmAux_tail seq maxAds (seq i) n prev cur stall i h'
    omega
  | succ d ih =>
    intro n i prev cur stall h
    cases n with
    | zero => dsimp only [salmAux]; omega
    | succ n =>
      have hshift : ∀ j, (i + 1) + d ≤ j → seq j = seq ((i + 1) + d) := by
        intro j hj
        have he : (i + 1) + d = i + (d + 1) := by omega
        rw [he]
        exact h j (by omega)
      rw [salmAux]
      by_cases hm : maxAds ≤ cur
      · rw [if_pos hm]; dsimp only; omega
      · rw [if_neg hm]
        by_cases hc : seq i = prev
        · rw [if_pos hc]
          by_cases hst : 2 ≤ stall
          · rw [if_pos hst]; dsimp only; omega
          · rw [if_neg hst]
            have := ih n (i + 1) prev (seq i) (stall + 1) hshift
            omega
        · rw [if_neg hc]
          have := ih n (i + 1) (seq i) (seq i) 0 hshift
          omega

/-- More fuel never changes a `scrollForMore` run that already
terminated. -/
theorem sfmAux_fuel_mono (seq : Nat → Nat) (maxAds : Nat) :
    ∀ (n m prev stall i : Nat) (p : Nat × Nat),
      sfmAux seq maxAds n prev stall i = some p →
      sfmAux seq maxAds (n + m) prev stall i = some p := by
  intro n
  induction n with
  | zero => intro m prev stall i p hp; simp [sfmAux] at hp
  | succ n ih =>
    intro m prev stall i p hp
    have he : n + 1 + m = (n + m) + 1 := by omega
    rw [he]
    rw [sfmAux] at hp ⊢
    by_cases h1 : 2 ≤ stall
    · rw [if_pos h1] at hp ⊢; exact hp
    · rw [if_neg h1] at hp ⊢
      by_cases h2 : maxAds ≤ seq i
      · rw [if_pos h2] at hp ⊢; exact hp
      · rw [if_neg h2] at hp ⊢
        exact ih m _ _ _ p hp

/-- On a plateau with `previousCount` already equal to the plateau value,
`scrollForMore` terminates with fuel `3` within `2 - stall` further
rounds (for any `stall ≤ 2`). -/
theorem sfmAux_stalled (seq : Nat → Nat) (maxAds v : Nat)
    (stall i : Nat) (hstall : stall ≤ 2) (h : ∀ j, i ≤ j → seq j = v) :
    ∃ p, sfmAux seq maxAds 3 v stall i = some p ∧ p.2 ≤ i + (2 - stall) := by
  have h0 : seq i = v := h i (le_refl i)
  have h1 : seq (i + 1) = v := h (i + 1) (by omega)
  interval_cases stall
  · by_cases hm : maxAds ≤ v
    · refine ⟨(v, i + 1), ?_, by omega⟩
      rw [show (3 : Nat) = 2 + 1 from rfl, sfmAux]
      rw [if_neg (by omega), h0, if_pos hm]
    · refine ⟨(v, i + 2), ?_, by omega⟩
      rw [show (3 : Nat) = 2 + 1 from rfl, sfmAux]
      rw [if_neg (by omega), h0, if_neg hm, if_pos rfl]
      rw [show (2 : Nat) = 1 + 1 from rfl, sfmAux]
      rw [if_neg (by omega), h1, if_neg hm]
      rw [if_pos rfl]
      rw [show (1 : Nat) = 0 + 1 from rfl, sfmAux]
      rw [if_pos (by omega)]
  · by_cases hm : maxAds ≤ v
    · refine ⟨(v, i + 1), ?_, by omega⟩
      rw [show (3 : Nat) = 2 + 1 from rfl, sfmAux]
      rw [if_neg (by omega), h0, if_pos hm]
    · refine ⟨(v, i + 1), ?_, by omega⟩
      rw [show (3 : Nat) = 2 + 1 from rfl, sfmAux]
      rw [if_neg (by omega), h0, if_neg hm, if_pos rfl]
      rw [show (2 : Nat) = 1 + 1 from rfl, sfmAux]
      rw [if_pos (by omega)]
  · refine ⟨(v, i), ?_, by omega⟩
    rw [show (3 : Nat) = 2 + 1 from rfl, sfmAux]
    rw [if_pos (by omega)]

/-- From any loop state, a measurement sequence constant from round `i + 1`
on lets `scrollForMore` terminate with fuel `4`, within 3 further
rounds. -/
theorem sfmAux_tail (seq : Nat → Nat) (maxAds v : Nat)
    (prev stall i : Nat) (h : ∀ j, i ≤ j → seq j = v) :
    ∃ p, sfmAux seq maxAds 4 prev stall i = some p ∧ p.2 ≤ i + 3 := by
  have h0 : seq i = v := h i (le_refl i)
  by_cases hst : 2 ≤ stall
  · refine ⟨(prev, i), ?_, by omega⟩
    rw [show (4 : Nat) = 3 + 1 from rfl, sfmAux, if_pos hst]
  · by_cases hm : maxAds ≤ seq i
    · refine ⟨(prev, i + 1), ?_, by omega⟩
      rw [show (4 : Nat) = 3 + 1 from rfl, sfmAux, if_neg hst, if_pos hm]
    · obtain ⟨p, hp, hp2⟩ := sfmAux_stalled seq maxAds v
        (if seq i = prev then stall + 1 else 0) (i + 1)
        (by split <;> omega) (fun j hj => h j (by omega))
      refine ⟨p, ?_, by omega⟩
      rw [show (4 : Nat) = 3 + 1 from rfl, sfmAux, if_neg hst, if_neg hm]
      rw [h0] at hp
      rw [h0]
      exact hp

/-- `scrollForMore` on a measurement sequence constant from round
`i + d + 1` on terminates with fuel `d + 4`, within `d + 3` further
rounds. -/
theorem sfmAux_plateau (seq : Nat → Nat) (maxAds : Nat) :
    ∀ (d i prev stall : Nat), (∀ j, i + d ≤ j → seq j = seq (i + d)) →
      ∃ p, sfmAux seq maxAds (d + 4) prev stall i = some p ∧ p.2 ≤ i + d + 3 := by
  intro d
  induction d with
  | zero =>
    intro i prev stall h
    have h' : ∀ j, i ≤ j → seq j = seq i := by
      intro j hj
      have := h j (by omega)
      have h0 : i + 0 = i := by omega
      rw [h0] at this
      exact this
    obtain ⟨p, hp, hp2⟩ := sfmAux_tail seq maxAds (seq i) prev stall i h'
    exact ⟨p, hp, by omega⟩
  | succ d ih =>
    intro i prev stall h
    have hshift : ∀ j, (i + 1) + d ≤ j → seq j = seq ((i + 1) + d) := by
      intro j hj
      have he : (i + 1) + d = i + (d + 1) := by omega
      rw [he]
      exact h j (by omega)
    by_cases hst : 2 ≤ stall
    · refine ⟨(prev, i), ?_, by omega⟩
      rw [show d + 1 + 4 = (d + 4) + 1 from by omega, sfmAux, if_pos hst]
    · by_cases hm : maxAds ≤ seq i
      · refine ⟨(prev, i + 1), ?_, by omega⟩
        rw [show d + 1 + 4 = (d + 4) + 1 from by omega, sfmAux, if_neg hst, if_pos hm]
      · obtain ⟨p, hp, hp2⟩ := ih (i + 1) (seq i)
          (if seq i = prev then stall + 1 else 0) hshift
        refine ⟨p, ?_, by omega⟩
        rw [show d + 1 + 4 = (d + 4) + 1 from by omega, sfmAux, if_neg hst, if_neg hm]
        exact hp

/-- Claim C4, amended: `scrollAndLoadMore` (second variant) never exceeds
its hard cap of 50 rounds, and on a measurement sequence constant from
round `k + 1` on it stops within `k + 4` rounds (plateau round plus the
stall threshold 3); `scrollForMore` (first variant) stops within `k + 3`
rounds on such a plateau (stall threshold 2) — but it has no hard cap of
its own (see the counterexample). -/
theorem pagination_round_bounds (seq : Nat → Nat) (maxAds cur0 k : Nat)
    (h : ∀ j, k ≤ j → seq j = seq k) :
    (scrollAndLoadMore seq maxAds cur0).2 ≤ 50
    ∧ (scrollAndLoadMore seq maxAds cur0).2 ≤ k + 4
    ∧ (scrollForMoreRun seq maxAds (k + 4)).isSome = true
    ∧ sfmRounds (scrollForMoreRun seq maxAds (k + 4)) ≤ k + 3 := by
  have h0 : ∀ j, 0 + k ≤ j → seq j = seq (0 + k) := by
    intro j hj
    have e : 0 + k = k := by omega
    rw [e]
    exact h j (by omega)
  have hb1 := salmAux_rounds_le seq maxAds 50 cur0 cur0 0 0
  have hb2 := salmAux_plateau seq maxAds k 50 0 cur0 cur0 0 h0
  obtain ⟨p, hp, hp2⟩ := sfmAux_plateau seq maxAds k 0 0 0 h0
  refine ⟨by unfold scrollAndLoadMore; omega, by unfold scrollAndLoadMore; omega, ?_, ?_⟩
  · unfold scrollForMoreRun
    rw [hp]
    rfl
  · unfold scrollForMoreRun sfmRounds
    rw [hp]
    simpa using by omega

/-- A measurement sequence frozen at 3 visible ads from the first round. -/
def flatSeq (_ : Nat) : Nat := 3

/-- Witness for C4 on the constant sequence (plateau from round 1,
`k = 0`). -/
theorem pagination_round_bounds_witness :
    (scrollAndLoadMore flatSeq 10 0).2 ≤ 50
    ∧ (scrollAndLoadMore flatSeq 10 0).2 ≤ 0 + 4
    ∧ (scrollForMoreRun flatSeq 10 (0 + 4)).isSome = true
    ∧ sfmRounds (scrollForMoreRun flatSeq 10 (0 + 4)) ≤ 0 + 3 :=
  pagination_round_bounds flatSeq 10 0 0 (fun _ _ => rfl)

/-- Counterexample to C4 as stated: `scrollForMore` has no hard cap on
total rounds. On the oscillating measurement sequence 0, 1, 0, 1, …
(never a plateau, never reaching `maxAds = 5`) the loop is still running
after 100 rounds — far beyond the only configured hard cap in the
repository, `maxScrollAttempts = 50` of `scrollAndLoadMore`. -/
theorem scrollForMore_unbounded_rounds :
    scrollForMoreRun oscSeq 5 100 = none := by decide

/-! ### Batch slicing and delivery (claims C3 and C7) -/

/-- `chunksFuel` of the empty list is empty at any fuel. -/
theorem chunksFuel_nil (b fuel : Nat) : chunksFuel b fuel [] = [] := by
  cases fuel <;> rfl

/-- The chunks concatenate back to the original list: the batches are the
consecutive slices. -/
theorem chunksFuel_flatten (b : Nat) (hb : 0 < b) :
    ∀ (fuel : Nat) (l : List MetaAd), l.length ≤ fuel →
      (chunksFuel b fuel l).flatten = l := by
  intro fuel
  induction fuel with
  | zero =>
    intro l hl
    cases l with
    | nil => rfl
    | cons x xs => simp at hl
  | succ fuel ih =>
    intro l hl
    cases l with
    | nil => rfl
    | cons x xs =>
      rw [chunksFuel, List.flatten_cons]
      rw [ih ((x :: xs).drop b) (by simp only [List.length_drop]; simp at hl ⊢; omega)]
      exact List.take_append_drop b (x :: xs)

/-- The number of chunks is the ceiling `(n + b - 1) / b`. -/
theorem chunksFuel_length (b : Nat) (hb : 0 < b) :
    ∀ (fuel : Nat) (l : List MetaAd), l.length ≤ fuel →
      (chunksFuel b fuel l).length = (l.length + b - 1) / b := by
  intro fuel
  induction fuel with
  | zero =>
    intro l hl
    cases l with
    | nil =>
      rw [chunksFuel_nil]
      simp only [List.length_nil]
      rw [Nat.div_eq_of_lt (show 0 + b - 1 < b by omega)]
    | cons x xs => simp at hl
  | succ fuel ih =>
    intro l hl
    cases l with
    | nil =>
      rw [chunksFuel_nil]
      simp only [List.length_nil]
      rw [Nat.div_eq_of_lt (show 0 + b - 1 < b by omega)]
    | cons x xs =>
      rw [chunksFuel]
      simp only [List.length_cons]
      rw [ih ((x :: xs).drop b) (by simp only [List.length_drop]; simp at hl ⊢; omega)]
      simp only [List.length_drop, List.length_cons]
      have hrw : xs.length + 1 + b - 1 = (xs.length + 1 - 1) + b := by omega
      rw [hrw, Nat.add_div_right _ hb]
      by_cases hnb : b < xs.length + 1
      · have h1 : xs.length + 1 - b + b - 1 = xs.length + 1 - 1 := by omega
        rw [h1]
      · have h1 : xs.length + 1 - b = 0 := by omega
        rw [h1]
        have h2 : 0 + b - 1 = b - 1 := by omega
        rw [h2, Nat.div_eq_of_lt (by omega), Nat.div_eq_of_lt (by omega)]

/-- Every chunk is non-empty and no larger than the batch size. -/
theorem chunksFuel_mem_sizes (b : Nat) (hb : 0 < b) :
    ∀ (fuel : Nat) (l : List MetaAd), l.length ≤ fuel →
      ∀ c ∈ chunksFuel b fuel l, 0 < c.length ∧ c.length ≤ b := by
  intro fuel
  induction fuel with
  | zero =>
    intro l hl c hc
    cases l with
    | nil => simp [chunksFuel_nil] at hc
    | cons x xs => simp at hl
  | succ fuel ih =>
    intro l hl c hc
    cases l with
    | nil => simp [chunksFuel_nil] at hc
    | cons x xs =>
      rw [chunksFuel] at hc
      rcases List.mem_cons.mp hc with hceq | hcmem
      · subst hceq
        simp only [List.length_take, List.length_cons]
        constructor
        · simp; omega
        · simp
      · exact ih ((x :: xs).drop b)
          (by simp only [List.length_drop]; simp at hl ⊢; omega) c hcmem

/-- Every chunk except possibly the last has length exactly `b`. -/
theorem chunksFuel_dropLast_sizes (b : Nat) (hb : 0 < b) :
    ∀ (fuel : Nat) (l : List MetaAd), l.length ≤ fuel →
      ∀ c ∈ (chunksFuel b fuel l).dropLast, c.length = b := by
  intro fuel
  induction fuel with
  | zero =>
    intro l hl c hc
    cases l with
    | nil => simp [chunksFuel_nil] at hc
    | cons x xs => simp at hl
  | succ fuel ih =>
    intro l hl c hc
    cases l with
    | nil => simp [chunksFuel_nil] at hc
    | cons x xs =>
      rw [chunksFuel] at hc
      have hdrop : ((x :: xs).drop b).length ≤ fuel := by
        simp only [List.length_drop]
        simp at hl ⊢
        omega
      by_cases hrest : chunksFuel b fuel ((x :: xs).drop b) = []
      · rw [hrest, List.dropLast_single] at hc
        simp at hc
      · rw [List.dropLast_cons_of_ne_nil hrest] at hc
        rcases List.mem_cons.mp hc with hceq | hcmem
        · subst hceq
          have hlen : b < (x :: xs).length := by
            by_contra hle
            rw [List.drop_eq_nil_of_le (by omega)] at hrest
            exact hrest (chunksFuel_nil b fuel)
          simp only [List.length_take]
          simp at hlen ⊢
          omega
        · exact ih ((x :: xs).drop b) hdrop c hcmem

/-- The batch-slicing contract for a query's accepted records: `ceil(n/b)`
batches, every batch of size at most `b` and non-empty, every batch but
the last of size exactly `b`, concatenating back to the records in
order. -/
def batchSlicingOK (b : Nat) (l : List MetaAd) : Prop :=
  (chunkList b l).length = (l.length + b - 1) / b
  ∧ ((chunkList b l).dropLast.all fun c => c.length == b) = true
  ∧ ((chunkList b l).all fun c => decide (0 < c.length) && decide (c.length ≤ b)) = true
  ∧ (chunkList b l).flatten = l

/-- The batch-slicing contract holds for every list and positive batch
size. -/
theorem chunkList_spec (b : Nat) (hb : 0 < b) (l : List MetaAd) : batchSlicingOK b l := by
  refine ⟨chunksFuel_length b hb l.length l (le_refl _), ?_, ?_,
    chunksFuel_flatten b hb l.length l (le_refl _)⟩
  · rw [List.all_eq_true]
    intro c hc
    rw [beq_iff_eq]
    exact chunksFuel_dropLast_sizes b hb l.length l (le_refl _) c hc
  · rw [List.all_eq_true]
    intro c hc
    have := chunksFuel_mem_sizes b hb l.length l (le_refl _) c hc
    simp only [Bool.and_eq_true, decide_eq_true_eq]
    exact this

/-- The final batch number after a dispatch loop. -/
theorem sendBatches_fst (f : Nat → DeliveryOutcome) :
    ∀ (cs : List (List MetaAd)) (bn : Nat), (sendBatches f bn cs).1 = bn + cs.length := by
  intro cs
  induction cs with
  | nil => intro bn; simp [sendBatches]
  | cons c cs ih =>
    intro bn
    rw [sendBatches]
    dsimp only
    rw [ih (bn + 1)]
    simp only [List.length_cons]
    omega

/-- The dispatched payloads are exactly the batches, in order — every
batch is posted exactly once, whatever the outcomes. -/
theorem sendBatches_payloads (f : Nat → DeliveryOutcome) :
    ∀ (cs : List (List MetaAd)) (bn : Nat),
      (sendBatches f bn cs).2.map (fun d => d.2.1) = cs := by
  intro cs
  induction cs with
  | nil => intro bn; rfl
  | cons c cs ih =>
    intro bn
    rw [sendBatches]
    dsimp only
    rw [List.map_cons, ih (bn + 1)]

/-- The batch numbers attached by a dispatch loop starting at counter `bn`
are `bn + 1, bn + 2, …`, one per batch. -/
theorem sendBatches_numbers (f : Nat → DeliveryOutcome) :
    ∀ (cs : List (List MetaAd)) (bn : Nat),
      (sendBatches f bn cs).2.map (fun d => d.1) = List.range' (bn + 1) cs.length := by
  intro cs
  induction cs with
  | nil => intro bn; rfl
  | cons c cs ih =>
    intro bn
    rw [sendBatches]
    dsimp only
    rw [List.map_cons, ih (bn + 1), List.length_cons, List.range'_succ]

/-- Run-wide batch numbering invariant: the numbers of all dispatches so
far are `1, 2, …, batchNumber`, preserved by handling one more query. -/
theorem handleQuery_numbers (b : Nat) (f : Nat → DeliveryOutcome)
    (st : RunState) (r : Except String (List MetaAd))
    (hst : st.dispatches.flatten.map (fun d => d.1) = List.range' 1 st.batchNumber) :
    (handleQuery b f st r).dispatches.flatten.map (fun d => d.1)
      = List.range' 1 (handleQuery b f st r).batchNumber := by
  cases r with
  | error e => exact hst
  | ok rawAds =>
    unfold handleQuery
    dsimp only
    rw [List.flatten_append, List.map_append, hst]
    rw [List.flatten_cons]
    simp only [List.flatten_nil, List.append_nil]
    rw [sendBatches_numbers, sendBatches_fst]
    have hs : st.batchNumber + 1 = 1 + 1 * st.batchNumber := by omega
    rw [hs, List.range'_append]
    have he : (chunkList b (filterNew st.tracker rawAds).2).length + st.batchNumber
        = st.batchNumber + (chunkList b (filterNew st.tracker rawAds).2).length := by omega
    rw [he]

/-- The run-wide batch numbers of a whole run are `1, …, batchNumber`. -/
theorem processRun_numbers_aux (b : Nat) (f : Nat → DeliveryOutcome) :
    ∀ (results : List (Except String (List MetaAd))) (st : RunState),
      st.dispatches.flatten.map (fun d => d.1) = List.range' 1 st.batchNumber →
      (results.foldl (handleQuery b f) st).dispatches.flatten.map (fun d => d.1)
        = List.range' 1 (results.foldl (handleQuery b f) st).batchNumber := by
  intro results
  induction results with
  | nil => intro st hst; exact hst
  | cons r rest ih =>
    intro st hst
    exact ih (handleQuery b f st r) (handleQuery_numbers b f st r hst)

/-- The run-wide batch numbers of a run from the initial state. -/
theorem processRun_numbers (b : Nat) (f : Nat → DeliveryOutcome)
    (results : List (Except String (List MetaAd))) :
    (processRun b f results).dispatches.flatten.map (fun d => d.1)
      = List.range' 1 (processRun b f results).batchNumber :=
  processRun_numbers_aux b f results RunState.init rfl

/-- Every query — including one whose scrape threw — bumps
`queriesCompleted` by one. -/
theorem processRun_queriesCompleted_aux (b : Nat) (f : Nat → DeliveryOutcome) :
    ∀ (results : List (Except String (List MetaAd))) (st : RunState),
      (results.foldl (handleQuery b f) st).queriesCompleted
        = st.queriesCompleted + results.length := by
  intro results
  induction results with
  | nil => intro st; simp
  | cons r rest ih =>
    intro st
    rw [List.foldl_cons, ih]
    have : (handleQuery b f st r).queriesCompleted = st.queriesCompleted + 1 := by
      cases r with
      | error e => rfl
      | ok rawAds => rfl
    rw [this]
    simp only [List.length_cons]
    omega

/-- The run handles every query: no failure aborts the run. -/
theorem processRun_queriesCompleted (b : Nat) (f : Nat → DeliveryOutcome)
    (results : List (Except String (List MetaAd))) :
    (processRun b f results).queriesCompleted = results.length := by
  unfold processRun
  rw [processRun_queriesCompleted_aux b f results RunState.init]
  show 0 + results.length = results.length
  omega

/-- The dispatch list with outcomes erased does not depend on the delivery
outcomes. -/
theorem sendBatches_strip (f g : Nat → DeliveryOutcome) :
    ∀ (cs : List (List MetaAd)) (bn : Nat),
      (sendBatches f bn cs).2.map (fun d => (d.1, d.2.1))
        = (sendBatches g bn cs).2.map (fun d => (d.1, d.2.1)) := by
  intro cs
  induction cs with
  | nil => intro bn; rfl
  | cons c cs ih =>
    intro bn
    rw [sendBatches, sendBatches]
    dsimp only
    rw [List.map_cons, List.map_cons, ih (bn + 1)]

/-- Everything in the run state except the recorded outcomes is
independent of the delivery outcomes: same tracker, same accepted ads,
same counters, same batch numbers and payloads. A failed POST changes
nothing downstream. -/
theorem processRun_outcome_blind (b : Nat) (f g : Nat → DeliveryOutcome) :
    ∀ (results : List (Except String (List MetaAd))) (st st' : RunState),
      st.tracker = st'.tracker → st.allAds = st'.allAds →
      st.totalProcessed = st'.totalProcessed →
      st.queriesCompleted = st'.queriesCompleted →
      st.batchNumber = st'.batchNumber →
      st.dispatches.map (fun ds => ds.map (fun d => (d.1, d.2.1)))
        = st'.dispatches.map (fun ds => ds.map (fun d => (d.1, d.2.1))) →
      (results.foldl (handleQuery b f) st).tracker
          = (results.foldl (handleQuery b g) st').tracker
      ∧ (results.foldl (handleQuery b f) st).allAds
          = (results.foldl (handleQuery b g) st').allAds
      ∧ (results.foldl (handleQuery b f) st).totalProcessed
          = (results.foldl (handleQuery b g) st').totalProcessed
      ∧ (results.foldl (handleQuery b f) st).queriesCompleted
          = (results.foldl (handleQuery b g) st').queriesCompleted
      ∧ (results.foldl (handleQuery b f) st).batchNumber
          = (results.foldl (handleQuery b g) st').batchNumber
      ∧ (results.foldl (handleQuery b f) st).dispatches.map
            (fun ds => ds.map (fun d => (d.1, d.2.1)))
          = (results.foldl (handleQuery b g) st').dispatches.map
            (fun ds => ds.map (fun d => (d.1, d.2.1))) := by
  intro results
  induction results with
  | nil =>
    intro st st' h1 h2 h3 h4 h5 h6
    exact ⟨h1, h2, h3, h4, h5, h6⟩
  | cons r rest ih =>
    intro st st' h1 h2 h3 h4 h5 h6
    cases r with
    | error e =>
      apply ih
      · exact h1
      · exact h2
      · exact h3
      · show st.queriesCompleted + 1 = st'.queriesCompleted + 1
        omega
      · exact h5
      · exact h6
    | ok rawAds =>
      apply ih
      · show (filterNew st.tracker rawAds).1 = (filterNew st'.tracker rawAds).1
        rw [h1]
      · show st.allAds ++ (filterNew st.tracker rawAds).2
            = st'.allAds ++ (filterNew st'.tracker rawAds).2
        rw [h1, h2]
      · show st.totalProcessed + (filterNew st.tracker rawAds).2.length
            = st'.totalProcessed + (filterNew st'.tracker rawAds).2.length
        rw [h1, h3]
      · show st.queriesCompleted + 1 = st'.queriesCompleted + 1
        omega
      · show (sendBatches f st.batchNumber (chunkList b (filterNew st.tracker rawAds).2)).1
            = (sendBatches g st'.batchNumber (chunkList b (filterNew st'.tracker rawAds).2)).1
        rw [h1, h5, sendBatches_fst, sendBatches_fst]
      · show (st.dispatches
              ++ [(sendBatches f st.batchNumber (chunkList b (filterNew st.tracker rawAds).2)).2]).map
                (fun ds => ds.map (fun d => (d.1, d.2.1)))
            = (st'.dispatches
              ++ [(sendBatches g st'.batchNumber (chunkList b (filterNew st'.tracker rawAds).2)).2]).map
                (fun ds => ds.map (fun d => (d.1, d.2.1)))
        rw [List.map_append, List.map_append, h6, h1, h5]
        simp only [List.map_cons, List.map_nil]
        rw [sendBatches_strip f g]

/-! ### Claim C3 -/

/-- Claim C3: for a positive batch size `b`, a query's accepted records
are dispatched as exactly `ceil(n/b)` batches — the consecutive slices,
every one non-empty and of size `b` except possibly the last — each batch
getting the next value of the shared run-wide counter, so the batch
numbers of a whole run are `1, 2, …, batchNumber`: strictly increasing
across all queries and never reset per query. -/
theorem batch_delivery_spec (b : Nat) (hb : 0 < b) (f : Nat → DeliveryOutcome)
    (t : DeduplicationTracker) (rawAds : List MetaAd) (bn : Nat)
    (results : List (Except String (List MetaAd))) :
    batchSlicingOK b (filterNew t rawAds).2
    ∧ (sendBatches f bn (chunkList b (filterNew t rawAds).2)).2.map (fun d => d.2.1)
        = chunkList b (filterNew t rawAds).2
    ∧ (sendBatches f bn (chunkList b (filterNew t rawAds).2)).2.map (fun d => d.1)
        = List.range' (bn + 1) (chunkList b (filterNew t rawAds).2).length
    ∧ (processRun b f results).dispatches.flatten.map (fun d => d.1)
        = List.range' 1 (processRun b f results).batchNumber
    ∧ List.Pairwise (fun x y => x < y)
        ((processRun b f results).dispatches.flatten.map (fun d => d.1)) := by
  refine ⟨chunkList_spec b hb _, sendBatches_payloads f _ bn, sendBatches_numbers f _ bn,
    processRun_numbers b f results, ?_⟩
  rw [processRun_numbers b f results]
  exact List.pairwise_lt_range' 1 _

/-- Witness for C3: batch size 2, one query with one raw record. -/
theorem batch_delivery_spec_witness :
    batchSlicingOK 2 (filterNew DeduplicationTracker.new [blankAd]).2
    ∧ (sendBatches allOk 0 (chunkList 2 (filterNew DeduplicationTracker.new [blankAd]).2)).2.map
          (fun d => d.2.1)
        = chunkList 2 (filterNew DeduplicationTracker.new [blankAd]).2
    ∧ (sendBatches allOk 0 (chunkList 2 (filterNew DeduplicationTracker.new [blankAd]).2)).2.map
          (fun d => d.1)
        = List.range' (0 + 1) (chunkList 2 (filterNew DeduplicationTracker.new [blankAd]).2).length
    ∧ (processRun 2 allOk [Except.ok [blankAd]]).dispatches.flatten.map (fun d => d.1)
        = List.range' 1 (processRun 2 allOk [Except.ok [blankAd]]).batchNumber
    ∧ List.Pairwise (fun x y => x < y)
        ((processRun 2 allOk [Except.ok [blankAd]]).dispatches.flatten.map (fun d => d.1)) :=
  batch_delivery_spec 2 (by decide) allOk DeduplicationTracker.new [blankAd] 0
    [Except.ok [blankAd]]

/-! ### Claim C7 -/

/-- Claim C7, amended: delivery outcomes steer nothing. A failed POST is
not retried (every batch number occurs exactly once, `1, …, batchNumber`),
all later batches of the same query and of later queries are still
attempted with identical numbers and payloads, the run still handles every
query — but the run-end `SUMMARY` is identical whatever the outcomes: it
reports the number of dispatched batches and does NOT report the number of
failed deliveries (failures are only logged). -/
theorem delivery_failure_nonblocking (b : Nat) (_hb : 0 < b)
    (f g : Nat → DeliveryOutcome) (results : List (Except String (List MetaAd))) :
    stripOutcomes (processRun b f results) = stripOutcomes (processRun b g results)
    ∧ (processRun b f results).dispatches.flatten.map (fun d => d.1)
        = List.range' 1 (processRun b f results).batchNumber
    ∧ (processRun b f results).queriesCompleted = results.length
    ∧ mkSummary results (processRun b f results) = mkSummary results (processRun b g results) := by
  obtain ⟨e1, e2, e3, e4, e5, e6⟩ := processRun_outcome_blind b f g results
    RunState.init RunState.init rfl rfl rfl rfl rfl rfl
  refine ⟨e6, processRun_numbers b f results, processRun_queriesCompleted b f results, ?_⟩
  unfold mkSummary
  rw [show (processRun b f results).queriesCompleted
      = (processRun b g results).queriesCompleted from e4]
  rw [show (processRun b f results).totalProcessed
      = (processRun b g results).totalProcessed from e3]
  rw [show (processRun b f results).allAds = (processRun b g results).allAds from e2]
  rw [show (processRun b f results).tracker = (processRun b g results).tracker from e1]
  rw [show (processRun b f results).batchNumber
      = (processRun b g results).batchNumber from e5]

/-- Witness for C7: one query, one record, every delivery failing with
HTTP 500 against every delivery succeeding. -/
theorem delivery_failure_nonblocking_witness :
    stripOutcomes (processRun 10 allHttp500 [Except.ok [blankAd]])
        = stripOutcomes (processRun 10 allOk [Except.ok [blankAd]])
    ∧ (processRun 10 allHttp500 [Except.ok [blankAd]]).dispatches.flatten.map (fun d => d.1)
        = List.range' 1 (processRun 10 allHttp500 [Except.ok [blankAd]]).batchNumber
    ∧ (processRun 10 allHttp500 [Except.ok [blankAd]]).queriesCompleted
        = ([Except.ok [blankAd]] : List (Except String (List MetaAd))).length
    ∧ mkSummary [Except.ok [blankAd]] (processRun 10 allHttp500 [Except.ok [blankAd]])
        = mkSummary [Except.ok [blankAd]] (processRun 10 allOk [Except.ok [blankAd]]) :=
  delivery_failure_nonblocking 10 (by decide) allHttp500 allOk [Except.ok [blankAd]]

/-- Counterexample to C7 as stated: a run whose single delivery fails with
HTTP 500 produces a `SUMMARY` identical to the run where it succeeded, so
the summary does not report the number of failed deliveries (1 here
against 0). -/
theorem summary_blind_to_delivery_failures :
    failedDeliveries (processRun 10 allHttp500 [Except.ok [blankAd]]) = 1
    ∧ failedDeliveries (processRun 10 allOk [Except.ok [blankAd]]) = 0
    ∧ mkSummary [Except.ok [blankAd]] (processRun 10 allHttp500 [Except.ok [blankAd]])
        = mkSummary [Except.ok [blankAd]] (processRun 10 allOk [Except.ok [blankAd]]) :=
  ⟨by decide, by decide, by decide⟩

/-! ### Claim C8 -/

/-- Claim C8, amended: the second `scrapeQuery` variant retries navigation
up to 3 attempts (2000 ms delay between them): failing twice and
succeeding on the third proceeds normally after exactly 3 attempts, and
all three failing surfaces the failure after 3 attempts; the error is
caught by the request handler, the query is still counted and the run
continues with the remaining queries. The first variant, however, performs
only up to 2 attempts. -/
theorem nav_retry_policy (att : Nat → Bool)
    (h1 : att 1 = false) (h2 : att 2 = false) (h3 : att 3 = true)
    (b : Nat) (f : Nat → DeliveryOutcome)
    (results : List (Except String (List MetaAd))) :
    navigateRetrySafe att = (true, 3)
    ∧ navigateRetrySafe (fun _ => false) = (false, 3)
    ∧ navigateRetryFast att = (false, 2)
    ∧ (processRun b f (Except.error "navigation" :: results)).queriesCompleted
        = results.length + 1 := by
  refine ⟨?_, rfl, ?_, ?_⟩
  · rw [navigateRetrySafe, h1, h2, h3]
    rfl
  · rw [navigateRetryFast, h1, h2]
    rfl
  · rw [processRun_queriesCompleted]
    rfl

/-- Witness for C8: the attempt oracle whose third attempt succeeds. -/
theorem nav_retry_policy_witness :
    navigateRetrySafe thirdAttemptSucceeds = (true, 3)
    ∧ navigateRetrySafe (fun _ => false) = (false, 3)
    ∧ navigateRetryFast thirdAttemptSucceeds = (false, 2)
    ∧ (processRun 1 allOk (Except.error "navigation" :: [])).queriesCompleted
        = List.length ([] : List (Except String (List MetaAd))) + 1 :=
  nav_retry_policy thirdAttemptSucceeds rfl rfl rfl 1 allOk []

/-- Counterexample to C8 as stated: under the first `scrapeQuery` variant
a navigation that would succeed on the third attempt still fails the
query — only 2 attempts are made, not 3. -/
theorem navigateRetryFast_two_attempts :
    navigateRetryFast thirdAttemptSucceeds = (false, 2)
    ∧ thirdAttemptSucceeds 3 = true :=
  ⟨by decide, rfl⟩
